import Mathlib

/-!
# email-ai-assistant — verification of the specified pipeline core

The repository ships a thin CRUD shell: a React dashboard (`src/ui.jsx`),
the relational schema (`src/README.md`), a seed script and the Express
route declarations (`src/testdb.sql`).  The pipeline proper (deduplicating
ingestor, review-workflow state machine, send pipeline, analysis stage) is
declared and called but its implementation is not present in the
repository, so those components are modelled from the specification's
words (each such definition says so in its doc comment).  The dashboard
logic in `src/ui.jsx` is embedded directly from the source.

Conventions of the embedding:

* Timestamps are `Nat` (ticks); ids are `Nat`.
* Floating-point columns of the schema (`confidence` on `email_analysis`
  and `draft_replies`) are omitted: no verified property mentions them.
* An operation that can be rejected returns `Except err PipelineState`;
  returning `Except.error e` means the call was rejected and the caller's
  state is unchanged (the specification's "leaves all entity state exactly
  as before the call").  The total wrapper `applyOp` makes this explicit.
-/

namespace EmailAssistant

/-- Workflow states of an Email, from the `status` column of `emails`
(`src/README.md`) and §4.7 of the specification. -/
inductive Status where
  | pending_review
  | in_progress
  | resolved
  | sent
deriving DecidableEq, Repr

/-- A normalized incoming message, the output shape of the Message
Normalizer (§4.3): sender address and the provider-side message id are
present by construction (a message missing them is dropped as
`MalformedMessage` before reaching the ingestor). -/
structure NormalizedMessage where
  external_id : String
  thread_id : String
  from_address : String
  subject : String
  body_text : String
  received_timestamp : Nat
deriving DecidableEq, Repr

/-- An Email row, from the `emails` table of `src/README.md` (columns not
touched by any verified property are omitted). -/
structure Email where
  email_id : Nat
  external_id : String
  thread_id : String
  from_address : String
  subject : String
  body_text : String
  received_timestamp : Nat
  is_read : Bool
  status : Status
  provider_id : Nat
deriving DecidableEq, Repr

/-- A DraftReply row, from the `draft_replies` table of `src/README.md`. -/
structure DraftReply where
  draft_id : Nat
  email_id : Nat
  subject : String
  body_text : String
  is_edited : Bool
  edited_by : Option Nat
  created_at : Nat
deriving DecidableEq, Repr

/-- An EmailAnalysis row, from the `email_analysis` table of
`src/README.md`. -/
structure EmailAnalysis where
  analysis_id : Nat
  email_id : Nat
  categories : List String
  sentiment : String
  intent : String
  urgency : Nat
  required_info : List String
  summary : String
  llm_provider_id : Nat
  llm_model : String
deriving DecidableEq, Repr

/-- An ActivityLogEntry row, from the `email_activity_logs` table of
`src/README.md`; `action_type` values follow the seed script
(`status_change`, `reply_sent`, ...) and the specification's kinds
(`received`, failure notes). -/
structure ActivityLogEntry where
  email_id : Nat
  action_type : String
  previous_value : Option String
  new_value : Option String
  actor : Option Nat
deriving DecidableEq, Repr

/-- The persistent store seen by the pipeline: the four entity tables of
§3 plus a fresh-id counter (the schema's generated keys). -/
structure PipelineState where
  emails : List Email
  drafts : List DraftReply
  analyses : List EmailAnalysis
  log : List ActivityLogEntry
  nextId : Nat
deriving DecidableEq, Repr

/-- The empty store. -/
def initState : PipelineState :=
  { emails := [], drafts := [], analyses := [], log := [], nextId := 1 }

/-- Deduplication-key match (§3, glossary): the (provider id, external
message id) pair. -/
def keyMatch (pid : Nat) (ext : String) (e : Email) : Bool :=
  e.provider_id == pid && e.external_id == ext

/-- Lookup of an existing Email by deduplication key (§4.4). -/
def findByKey (s : PipelineState) (pid : Nat) (ext : String) : Option Email :=
  s.emails.find? (keyMatch pid ext)

/-- Number of Email rows carrying a given deduplication key. -/
def countByKey (s : PipelineState) (pid : Nat) (ext : String) : Nat :=
  s.emails.countP (keyMatch pid ext)

/-- Lookup of an Email by primary key. -/
def findEmail (s : PipelineState) (eid : Nat) : Option Email :=
  s.emails.find? (fun e => e.email_id == eid)

/-- Lookup of a DraftReply by primary key. -/
def findDraft (s : PipelineState) (did : Nat) : Option DraftReply :=
  s.drafts.find? (fun d => d.draft_id == did)

/-- True when some DraftReply belongs to the given Email. -/
def hasDraft (s : PipelineState) (eid : Nat) : Bool :=
  s.drafts.any (fun d => d.email_id == eid)

/-- The "received" Activity Log entry appended on first ingestion (§4.4). -/
def receivedEntry (eid : Nat) : ActivityLogEntry :=
  { email_id := eid, action_type := "received", previous_value := none,
    new_value := some "pending_review", actor := none }

/-- The Email row inserted on first ingestion of a normalized message
(§4.4): fresh id, fields copied from the message, status
`pending_review`. -/
def newEmailOf (s : PipelineState) (pid : Nat) (msg : NormalizedMessage) :
    Email :=
  { email_id := s.nextId, external_id := msg.external_id,
    thread_id := msg.thread_id, from_address := msg.from_address,
    subject := msg.subject, body_text := msg.body_text,
    received_timestamp := msg.received_timestamp, is_read := false,
    status := Status.pending_review, provider_id := pid }

/-- Modelled from the spec: §4.4 Deduplicating Ingestor (its
implementation is not in the repository; only the schema and the routes
that sit above it are).  Given a normalized message and its owning
provider, looks up an existing Email by (provider id, external message
id); if found the call is a no-op, otherwise it inserts a new Email with
status `pending_review` and appends an Activity Log entry of kind
"received". -/
def ingestOp (s : PipelineState) (pid : Nat) (msg : NormalizedMessage) :
    PipelineState :=
  match findByKey s pid msg.external_id with
  | some _ => s
  | none =>
      { s with emails := s.emails ++ [newEmailOf s pid msg],
               log := s.log ++ [receivedEntry s.nextId],
               nextId := s.nextId + 1 }

/-- Error taxonomy of §7 (only the kinds the verified properties use). -/
inductive WorkflowError where
  | NotFound
  | InvalidTransition
deriving DecidableEq, Repr

/-- Rejected draft edit (§4.7, §7). -/
inductive EditError where
  | NotFound
  | DraftLocked
deriving DecidableEq, Repr

/-- Send-pipeline errors (§4.8, §7). -/
inductive SendError where
  | SendPreconditionFailed
  | SendDeliveryError
deriving DecidableEq, Repr

/-- Modelled from the spec: the allowed edges of the §4.7 Review Workflow
state machine for externally requested status updates:
`pending_review → in_progress`, `pending_review → resolved`,
`in_progress → resolved`.  `sent` and `resolved` are terminal.  The
`sent` state is entered only by the Send Pipeline's own finalization
(§2 control flow, §3 invariant "`sent` implies a DraftReply existed and
was transmitted", §4.8), never by a direct status-update request, so
`sent` is not a target of these edges. -/
def allowedTransition : Status → Status → Bool
  | Status.pending_review, Status.in_progress => true
  | Status.pending_review, Status.resolved => true
  | Status.in_progress, Status.resolved => true
  | _, _ => false

/-- Human-readable status name, as stored in activity-log values
(`src/testdb.sql`). -/
def statusName : Status → String
  | Status.pending_review => "pending_review"
  | Status.in_progress => "in_progress"
  | Status.resolved => "resolved"
  | Status.sent => "sent"

/-- The `status_change` Activity Log entry appended on a workflow
transition (§4.7, `src/testdb.sql` action_type values). -/
def statusChangeEntry (eid : Nat) (prev next : Status) (actor : Nat) :
    ActivityLogEntry :=
  { email_id := eid, action_type := "status_change",
    previous_value := some (statusName prev),
    new_value := some (statusName next), actor := some actor }

/-- Modelled from the spec: §4.7 Review Workflow transition call (its
implementation — the `emailsController.updateEmailStatus` behind
`PATCH /emails/:id/status` — is not in the repository).  Supplies the
actor, checks the state machine's allowed edges, appends an
ActivityLogEntry recording previous/new status; an attempt out of a
terminal state (or any disallowed edge) fails with `InvalidTransition`.
Returning an error means the call was rejected and the store is
unchanged. -/
def updateEmailStatus (s : PipelineState) (eid : Nat) (target : Status)
    (actor : Nat) : Except WorkflowError PipelineState :=
  match findEmail s eid with
  | none => Except.error WorkflowError.NotFound
  | some e =>
      if allowedTransition e.status target then
        Except.ok
          { s with
            emails := s.emails.map
              (fun x => if x.email_id == eid then { x with status := target } else x),
            log := s.log ++ [statusChangeEntry eid e.status target actor] }
      else
        Except.error WorkflowError.InvalidTransition

/-- Modelled from the spec: the §4.7 edit rule behind
`PUT /drafts/:id` (`draftsController.updateDraft`, not in the repository;
`src/ui.jsx` `updateDraftReply` is its caller).  A DraftReply may be
edited — content replaced, `is_edited` set true, editor recorded — only
while its Email is not `sent`; an edit attempt on a `sent` email fails
with `DraftLocked`.  Returning an error means the store is unchanged. -/
def editDraft (s : PipelineState) (did : Nat) (content : String)
    (editor : Nat) : Except EditError PipelineState :=
  match findDraft s did with
  | none => Except.error EditError.NotFound
  | some d =>
      match findEmail s d.email_id with
      | none => Except.error EditError.NotFound
      | some e =>
          if e.status = Status.sent then
            Except.error EditError.DraftLocked
          else
            Except.ok
              { s with
                drafts := s.drafts.map
                  (fun x => if x.draft_id == did then
                    { x with body_text := content, is_edited := true,
                             edited_by := some editor } else x) }

/-- The `reply_sent` Activity Log entry of §4.8 (`src/testdb.sql`
action_type `reply_sent`). -/
def replySentEntry (eid : Nat) (actor : Nat) : ActivityLogEntry :=
  { email_id := eid, action_type := "reply_sent",
    previous_value := none, new_value := some "sent", actor := some actor }

/-- The Activity Log entry noting a failed send attempt (§4.8). -/
def sendFailedEntry (eid : Nat) (actor : Nat) : ActivityLogEntry :=
  { email_id := eid, action_type := "send_failed",
    previous_value := none, new_value := none, actor := some actor }

/-- Result of one send-pipeline invocation: the resulting store, whether
the provider's send capability was actually invoked, and the reported
outcome. -/
structure SendResult where
  state : PipelineState
  providerCalled : Bool
  outcome : Except SendError Unit
deriving Repr

/-- Modelled from the spec: §4.8 Send Pipeline (its implementation — the
`emailsController.sendReply` behind `POST /emails/:id/send` — is not in
the repository).  Preconditions are checked before any external effect:
the Email exists, has a DraftReply, and its status admits the workflow's
finalizing transition to `sent` — in particular it is not already `sent`
and not in the terminal `resolved` state (§4.7: terminal states accept no
further transition; §5: every status write goes through the Review
Workflow).  On failed preconditions: `SendPreconditionFailed`, the
provider is never called, the store is untouched.  Otherwise the provider
send capability is invoked (`providerOk` stands for its outcome): on
success the status is set to `sent` and a `reply_sent` entry is appended;
on failure the status is left unchanged, `SendDeliveryError` is reported,
and the only write is an Activity Log entry noting the failed attempt. -/
def sendOp (s : PipelineState) (eid : Nat) (providerOk : Bool)
    (actor : Nat) : SendResult :=
  match findEmail s eid with
  | none =>
      { state := s, providerCalled := false,
        outcome := Except.error SendError.SendPreconditionFailed }
  | some e =>
      if hasDraft s eid = false then
        { state := s, providerCalled := false,
          outcome := Except.error SendError.SendPreconditionFailed }
      else if e.status = Status.sent ∨ e.status = Status.resolved then
        { state := s, providerCalled := false,
          outcome := Except.error SendError.SendPreconditionFailed }
      else if providerOk then
        { state :=
            { s with
              emails := s.emails.map
                (fun x => if x.email_id == eid then
                  { x with status := Status.sent } else x),
              log := s.log ++ [replySentEntry eid actor] },
          providerCalled := true, outcome := Except.ok () }
      else
        { state := { s with log := s.log ++ [sendFailedEntry eid actor] },
          providerCalled := true,
          outcome := Except.error SendError.SendDeliveryError }

/-- The structured classification output of a model provider (§6
`classify`), before it is attached to an Email. -/
structure AnalysisData where
  categories : List String
  sentiment : String
  intent : String
  urgency : Nat
  required_info : List String
  summary : String
  llm_provider_id : Nat
  llm_model : String
deriving DecidableEq, Repr

/-- The Activity Log entry recording an analysis-stage failure (§4.5:
"the failure is logged"). -/
def analysisFailedEntry (eid : Nat) : ActivityLogEntry :=
  { email_id := eid, action_type := "analysis_failed",
    previous_value := none, new_value := none, actor := none }

/-- Modelled from the spec: §4.5 Analysis Stage for one Email (its
implementation is not in the repository).  `r` is the outcome of the
model-provider call (provider error, malformed response and timeout all
collapse to `Except.error`).  On success a new immutable EmailAnalysis
record is stored; on failure the Email keeps its status, no EmailAnalysis
is created, and one failure event is logged. -/
def analyzeOne (s : PipelineState) (eid : Nat)
    (r : Except Unit AnalysisData) : PipelineState :=
  match findEmail s eid with
  | none => s
  | some _ =>
      match r with
      | Except.ok a =>
          { s with
            analyses := s.analyses ++
              [{ analysis_id := s.nextId, email_id := eid,
                 categories := a.categories, sentiment := a.sentiment,
                 intent := a.intent, urgency := a.urgency,
                 required_info := a.required_info, summary := a.summary,
                 llm_provider_id := a.llm_provider_id,
                 llm_model := a.llm_model }],
            nextId := s.nextId + 1 }
      | Except.error _ => { s with log := s.log ++ [analysisFailedEntry eid] }

/-- Modelled from the spec: one pass of the Analysis Stage over a batch of
emails (§4.5): each email is processed in turn and a failure never blocks
the processing of the remaining emails of the pass. -/
def analysisPass (s : PipelineState)
    (batch : List (Nat × Except Unit AnalysisData)) : PipelineState :=
  batch.foldl (fun st p => analyzeOne st p.1 p.2) s

/-- The draft produced by a model provider (§6 `draft`), before it is
attached to an Email. -/
structure DraftData where
  subject : String
  body_text : String
  llm_provider_id : Nat
  llm_model : String
  created_at : Nat
deriving DecidableEq, Repr

/-- The Activity Log entry recording a draft-generation failure (§4.6). -/
def draftFailedEntry (eid : Nat) : ActivityLogEntry :=
  { email_id := eid, action_type := "draft_failed",
    previous_value := none, new_value := none, actor := none }

/-- Modelled from the spec: §4.6 Draft Generation Stage for one Email (its
implementation is not in the repository).  On success stores a new
DraftReply with `is_edited = false`; a fresh automated draft may appear
only while the Email's status is still `pending_review` or `in_progress`
(§3) — never after `sent`.  On failure the Email remains without a new
draft and its status is untouched. -/
def draftGenOp (s : PipelineState) (eid : Nat)
    (r : Except Unit DraftData) : PipelineState :=
  match findEmail s eid with
  | none => s
  | some e =>
      if e.status = Status.pending_review ∨ e.status = Status.in_progress then
        match r with
        | Except.ok d =>
            { s with
              drafts := s.drafts ++
                [{ draft_id := s.nextId, email_id := eid,
                   subject := d.subject, body_text := d.body_text,
                   is_edited := false, edited_by := none,
                   created_at := d.created_at }],
              nextId := s.nextId + 1 }
        | Except.error _ => { s with log := s.log ++ [draftFailedEntry eid] }
      else s

/-- One pipeline or workflow operation, for reasoning about whole
execution traces. -/
inductive Op where
  | ingest (pid : Nat) (msg : NormalizedMessage)
  | status (eid : Nat) (target : Status) (actor : Nat)
  | edit (did : Nat) (content : String) (editor : Nat)
  | send (eid : Nat) (providerOk : Bool) (actor : Nat)
  | analyze (eid : Nat) (r : Except Unit AnalysisData)
  | draftGen (eid : Nat) (r : Except Unit DraftData)
deriving Repr

/-- Total application of one operation: a rejected call leaves the store
exactly as before (§7: "leaves all entity state exactly as before the
call"). -/
def applyOp (s : PipelineState) : Op → PipelineState
  | Op.ingest pid msg => ingestOp s pid msg
  | Op.status eid target actor =>
      match updateEmailStatus s eid target actor with
      | Except.ok s' => s'
      | Except.error _ => s
  | Op.edit did content editor =>
      match editDraft s did content editor with
      | Except.ok s' => s'
      | Except.error _ => s
  | Op.send eid providerOk actor => (sendOp s eid providerOk actor).state
  | Op.analyze eid r => analyzeOne s eid r
  | Op.draftGen eid r => draftGenOp s eid r

/-- Run a trace of operations from a starting store. -/
def run (s : PipelineState) (ops : List Op) : PipelineState :=
  ops.foldl applyOp s

/-- A store is reachable when some trace of pipeline and workflow
operations produces it from the empty store. -/
def Reachable (s : PipelineState) : Prop :=
  ∃ ops : List Op, run initState ops = s

/-! ## Dashboard embedding (`src/ui.jsx`)

The React component `EmailManagementDashboard` is embedded as a state
machine: the modelled state keeps the fields the verified properties
touch (`emails`, `selectedEmail`, `selectedDraft`, `replyContent`,
`editingReply`); `loading`, `error` and the filter/sort/search controls
only affect which requests are made, not whether a send is emitted, and
are omitted.  An event models either a user interaction on a rendered,
enabled control (a click on a disabled or unrendered button cannot occur
and is a no-op in the model) or the successful completion of a service
call, carrying the server's response as data. -/

/-- The email payload the dashboard receives from `GET /emails/:id`: the
email row together with its `draft_replies` collection
(`src/ui.jsx` `handleSelectEmail`). -/
structure EmailData where
  email_id : Nat
  status : Status
  draft_replies : List DraftReply
deriving DecidableEq, Repr

/-- Embedded from `src/ui.jsx` lines 106–110 (`handleSelectEmail`): the
dashboard takes the FIRST element of `draft_replies` as the latest draft
— the code's comment reads "Assuming sorted by date". -/
def latestDraftUI (draft_replies : List DraftReply) : Option DraftReply :=
  draft_replies.head?

/-- Follows the spec's words (§9 design note): the "current draft" of an
Email is the DraftReply with the maximum `created_at` timestamp,
regardless of the order in which drafts are stored or returned. -/
def currentDraftByTimestamp (ds : List DraftReply) : Option DraftReply :=
  ds.foldl
    (fun acc d =>
      match acc with
      | none => some d
      | some m => if m.created_at < d.created_at then some d else some m)
    none

/-- The dashboard component's state (`src/ui.jsx` `useState` hooks, the
fields relevant to the verified properties). -/
structure DashState where
  emails : List EmailData
  selectedEmail : Option EmailData
  selectedDraft : Option DraftReply
  replyContent : String
  editingReply : Bool
deriving DecidableEq, Repr

/-- The component's initial state (`src/ui.jsx` lines 68–72). -/
def initDash : DashState :=
  { emails := [], selectedEmail := none, selectedDraft := none,
    replyContent := "", editingReply := false }

/-- A `POST /emails/:id/send` request emitted by the dashboard
(`src/ui.jsx` `sendReply`). -/
structure SendRequest where
  email_id : Nat
  draft_id : Nat
deriving DecidableEq, Repr

/-- Dashboard events: user interactions and service-call completions
(`src/ui.jsx` handlers). -/
inductive UIEvent where
  | fetchSuccess (data : List EmailData)
  | selectEmail (data : EmailData)
  | editClick
  | cancelClick
  | setContent (c : String)
  | saveSuccess (updated : DraftReply)
  | sendClick (ok : Bool)
  | statusChange (eid : Nat) (updated : EmailData)
deriving Repr

/-- Embedded from `src/ui.jsx`: one dashboard step.  Returns the next
component state and the send request emitted by this step, if any.

* `fetchSuccess` — `fetchEmails` success: replaces the email list.
* `selectEmail` — `handleSelectEmail` success: stores the loaded email;
  when `draft_replies` is non-empty the first element becomes the
  selected draft and fills `replyContent`, otherwise the selected draft
  is cleared; editing mode ends.
* `editClick` / `cancelClick` / `setContent` — the Edit/Cancel buttons
  and the reply textarea, which only exist while the draft panel is
  rendered (an email and a draft are selected).
* `saveSuccess` — `handleSaveReply` success (guarded by
  `selectedEmail && selectedDraft`): the server's updated draft replaces
  the selected draft; editing mode ends.
* `sendClick ok` — a click on the Send Reply button.  The button exists
  only inside the draft panel (email and draft selected) and carries
  `disabled={selectedEmail.status === 'sent' || editingReply}`
  (lines 485–496); a click on a disabled button does nothing.  When the
  click goes through, `handleSendReply` (guard
  `selectedEmail && selectedDraft`) issues the send request; on success
  the selected email's status becomes `sent` locally and in the list.
* `statusChange` — `handleStatusChange` success: the updated email
  replaces its list entry and, when selected, the selection. -/
def step (s : DashState) : UIEvent → DashState × Option SendRequest
  | UIEvent.fetchSuccess data => ({ s with emails := data }, none)
  | UIEvent.selectEmail data =>
      match latestDraftUI data.draft_replies with
      | some d =>
          ({ s with selectedEmail := some data, selectedDraft := some d,
                    replyContent := d.body_text, editingReply := false }, none)
      | none =>
          ({ s with selectedEmail := some data, selectedDraft := none,
                    replyContent := "", editingReply := false }, none)
  | UIEvent.editClick =>
      match s.selectedEmail, s.selectedDraft with
      | some _, some _ =>
          if s.editingReply then (s, none)
          else ({ s with editingReply := true }, none)
      | _, _ => (s, none)
  | UIEvent.cancelClick =>
      match s.selectedEmail, s.selectedDraft with
      | some _, some d =>
          if s.editingReply then
            ({ s with replyContent := d.body_text, editingReply := false }, none)
          else (s, none)
      | _, _ => (s, none)
  | UIEvent.setContent c =>
      if s.editingReply then ({ s with replyContent := c }, none) else (s, none)
  | UIEvent.saveSuccess updated =>
      match s.selectedEmail, s.selectedDraft with
      | some _, some _ =>
          ({ s with selectedDraft := some updated, editingReply := false }, none)
      | _, _ => (s, none)
  | UIEvent.sendClick ok =>
      match s.selectedEmail, s.selectedDraft with
      | some e, some d =>
          if e.status = Status.sent ∨ s.editingReply then (s, none)
          else
            let req : SendRequest :=
              { email_id := e.email_id, draft_id := d.draft_id }
            if ok then
              let updated := { e with status := Status.sent }
              ({ s with
                 selectedEmail := some updated,
                 emails := s.emails.map
                   (fun x => if x.email_id == e.email_id then updated else x) },
               some req)
            else (s, some req)
      | _, _ => (s, none)
  | UIEvent.statusChange eid updated =>
      let emails' := s.emails.map (fun x => if x.email_id == eid then updated else x)
      match s.selectedEmail with
      | some e =>
          if e.email_id == eid then
            ({ s with emails := emails', selectedEmail := some updated }, none)
          else ({ s with emails := emails' }, none)
      | none => ({ s with emails := emails' }, none)

/-! ## Helper lemmas -/

theorem find?_append_of_none {α : Type} {p : α → Bool} {l₁ l₂ : List α}
    (h : l₁.find? p = none) : (l₁ ++ l₂).find? p = l₂.find? p := by
  rw [List.find?_append, h, Option.none_or]

theorem countP_eq_zero_of_find?_none {α : Type} {p : α → Bool} {l : List α}
    (h : l.find? p = none) : l.countP p = 0 :=
  List.countP_eq_zero.mpr (List.find?_eq_none.mp h)

theorem keyMatch_newEmailOf (s : PipelineState) (pid : Nat)
    (msg : NormalizedMessage) :
    keyMatch pid msg.external_id (newEmailOf s pid msg) = true := by
  simp [keyMatch, newEmailOf]

theorem ingest_found {s : PipelineState} {pid : Nat} {msg : NormalizedMessage}
    {e : Email} (h : findByKey s pid msg.external_id = some e) :
    ingestOp s pid msg = s := by
  unfold ingestOp
  rw [h]

theorem ingest_not_found {s : PipelineState} {pid : Nat}
    {msg : NormalizedMessage} (h : findByKey s pid msg.external_id = none) :
    ingestOp s pid msg =
      { s with emails := s.emails ++ [newEmailOf s pid msg],
               log := s.log ++ [receivedEntry s.nextId],
               nextId := s.nextId + 1 } := by
  unfold ingestOp
  rw [h]

theorem findByKey_after_insert {s : PipelineState} {pid : Nat}
    {msg : NormalizedMessage} (h : findByKey s pid msg.external_id = none) :
    findByKey (ingestOp s pid msg) pid msg.external_id =
      some (newEmailOf s pid msg) := by
  rw [ingest_not_found h]
  show ((s.emails ++ [newEmailOf s pid msg]).find? _) = _
  rw [find?_append_of_none h,
      List.find?_cons_of_pos _ (keyMatch_newEmailOf s pid msg)]

/-! ## Claim theorems -/

/-- C1: for every provider and every valid raw message not yet known by
its (provider id, external message id) pair, ingesting the same message
twice creates exactly one Email: the first ingestion inserts an Email
with status `pending_review` and appends an Activity Log entry of kind
"received", and re-ingestion of the same message is a no-op. -/
theorem ingest_dedup_idempotent (s : PipelineState) (pid : Nat)
    (msg : NormalizedMessage) (h : findByKey s pid msg.external_id = none) :
    countByKey (ingestOp (ingestOp s pid msg) pid msg) pid msg.external_id
        = 1 ∧
    (∃ e, findByKey (ingestOp s pid msg) pid msg.external_id = some e ∧
       e.status = Status.pending_review) ∧
    (ingestOp s pid msg).log = s.log ++ [receivedEntry s.nextId] ∧
    ingestOp (ingestOp s pid msg) pid msg = ingestOp s pid msg := by
  have hfound := findByKey_after_insert h
  have hnoop : ingestOp (ingestOp s pid msg) pid msg = ingestOp s pid msg :=
    ingest_found hfound
  refine ⟨?_, ⟨newEmailOf s pid msg, hfound, rfl⟩, ?_, hnoop⟩
  · rw [hnoop, ingest_not_found h]
    show (s.emails ++ [newEmailOf s pid msg]).countP _ = 1
    rw [List.countP_append, countP_eq_zero_of_find?_none h]
    simp [keyMatch_newEmailOf s pid msg]
  · rw [ingest_not_found h]

/-- Witness for C1, Scenario A of the specification: a message with
external id `e_2001` ingested twice into the empty store yields exactly
one Email row, in status `pending_review`. -/
theorem ingest_dedup_idempotent_witness :
    findByKey initState 1
        { external_id := "e_2001", thread_id := "t_2001",
          from_address := "a@example.com", subject := "hi",
          body_text := "hello", received_timestamp := 5 :
          NormalizedMessage }.external_id = none ∧
    countByKey
      (ingestOp
        (ingestOp initState 1
          { external_id := "e_2001", thread_id := "t_2001",
            from_address := "a@example.com", subject := "hi",
            body_text := "hello", received_timestamp := 5 }) 1
        { external_id := "e_2001", thread_id := "t_2001",
          from_address := "a@example.com", subject := "hi",
          body_text := "hello", received_timestamp := 5 }) 1 "e_2001" = 1 :=
  ⟨rfl,
    (ingest_dedup_idempotent initState 1
      { external_id := "e_2001", thread_id := "t_2001",
        from_address := "a@example.com", subject := "hi",
        body_text := "hello", received_timestamp := 5 } rfl).1⟩

/-- Number of `reply_sent` Activity Log entries recorded for an Email. -/
def countReplySent (s : PipelineState) (eid : Nat) : Nat :=
  s.log.countP (fun l => l.email_id == eid && l.action_type == "reply_sent")

/-- Generic update-in-place lemma: mapping `if p x then f x else x` over a
list sends its first `p`-match to `f` of that match, when `f` preserves
`p`. -/
theorem find?_map_ite {α : Type} {p : α → Bool} (f : α → α) {l : List α}
    {d : α} (h : l.find? p = some d)
    (hf : ∀ x, p x = true → p (f x) = true) :
    (l.map (fun x => if p x = true then f x else x)).find? p = some (f d) := by
  induction l with
  | nil => exact absurd h (by simp)
  | cons a t ih =>
      rw [List.map_cons]
      by_cases ha : p a = true
      · rw [List.find?_cons_of_pos t ha] at h
        injection h with h
        subst h
        rw [if_pos ha]
        exact List.find?_cons_of_pos _ (hf _ ha)
      · rw [List.find?_cons_of_neg t ha] at h
        rw [if_neg ha, List.find?_cons_of_neg _ ha]
        exact ih h

theorem allowedTransition_of_terminal {st : Status} (target : Status)
    (h : st = Status.resolved ∨ st = Status.sent) :
    allowedTransition st target = false := by
  rcases h with h | h <;> subst h <;> cases target <;> rfl

/-- C2: for every Email in status `resolved` or `sent`, any attempted
status transition fails with `InvalidTransition` and leaves the store
(in particular the status) unchanged. -/
theorem terminal_transition_rejected (s : PipelineState) (eid : Nat)
    (e : Email) (target : Status) (actor : Nat)
    (hfind : findEmail s eid = some e)
    (hterm : e.status = Status.resolved ∨ e.status = Status.sent) :
    updateEmailStatus s eid target actor =
        Except.error WorkflowError.InvalidTransition ∧
    applyOp s (Op.status eid target actor) = s := by
  have hallow := allowedTransition_of_terminal target hterm
  have h1 : updateEmailStatus s eid target actor =
      Except.error WorkflowError.InvalidTransition := by
    simp [updateEmailStatus, hfind, hallow]
  exact ⟨h1, by simp [applyOp, h1]⟩

/-- A resolved Email, used as a concrete store for witnesses. -/
def exResolvedEmail : Email :=
  { email_id := 1, external_id := "e_1003", thread_id := "thread_1003",
    from_address := "potential_client@example.com",
    subject := "Interested in enterprise plan pricing", body_text := "Hello",
    received_timestamp := 10, is_read := true, status := Status.resolved,
    provider_id := 1 }

/-- A store holding only `exResolvedEmail`. -/
def exResolvedState : PipelineState :=
  { emails := [exResolvedEmail], drafts := [], analyses := [], log := [],
    nextId := 2 }

/-- Witness for C2, after Scenario D: attempting
`resolved → in_progress` fails with `InvalidTransition` and the store is
untouched. -/
theorem terminal_transition_rejected_witness :
    updateEmailStatus exResolvedState 1 Status.in_progress 7 =
        Except.error WorkflowError.InvalidTransition ∧
    applyOp exResolvedState (Op.status 1 Status.in_progress 7) =
        exResolvedState :=
  terminal_transition_rejected exResolvedState 1 exResolvedEmail
    Status.in_progress 7 rfl (Or.inl rfl)

/-- C5: send on an Email that does not exist, has no DraftReply, or is
already `sent` fails with `SendPreconditionFailed` before any external
effect: the provider is never called, the store is unchanged, and no
`reply_sent` Activity Log entry is created. -/
theorem send_precondition_guard (s : PipelineState) (eid : Nat)
    (pOk : Bool) (actor : Nat)
    (h : findEmail s eid = none ∨
         (∃ e, findEmail s eid = some e ∧ hasDraft s eid = false) ∨
         (∃ e, findEmail s eid = some e ∧ e.status = Status.sent)) :
    sendOp s eid pOk actor =
      { state := s, providerCalled := false,
        outcome := Except.error SendError.SendPreconditionFailed } ∧
    countReplySent (sendOp s eid pOk actor).state eid = countReplySent s eid := by
  have hmain : sendOp s eid pOk actor =
      { state := s, providerCalled := false,
        outcome := Except.error SendError.SendPreconditionFailed } := by
    rcases h with h | ⟨e, he, hd⟩ | ⟨e, he, hs⟩
    · simp [sendOp, h]
    · simp [sendOp, he, hd]
    · by_cases hd : hasDraft s eid = false
      · simp [sendOp, he, hd]
      · simp [sendOp, he, hd, hs]
  exact ⟨hmain, by rw [hmain]⟩

/-- An Email in `pending_review` with no draft, for Scenario B. -/
def exNoDraftEmail : Email :=
  { email_id := 1, external_id := "e_1001", thread_id := "thread_1001",
    from_address := "customer1@example.com",
    subject := "Need help with my subscription", body_text := "Hello",
    received_timestamp := 2, is_read := false,
    status := Status.pending_review, provider_id := 1 }

/-- A store holding only `exNoDraftEmail` (no drafts at all). -/
def exNoDraftState : PipelineState :=
  { emails := [exNoDraftEmail], drafts := [], analyses := [], log := [],
    nextId := 2 }

/-- Witness for C5, Scenario B: sending an Email with no DraftReply fails
with `SendPreconditionFailed`, the provider is never invoked, and no
`reply_sent` entry appears. -/
theorem send_precondition_guard_witness :
    sendOp exNoDraftState 1 true 7 =
      { state := exNoDraftState, providerCalled := false,
        outcome := Except.error SendError.SendPreconditionFailed } ∧
    countReplySent (sendOp exNoDraftState 1 true 7).state 1 =
      countReplySent exNoDraftState 1 :=
  send_precondition_guard exNoDraftState 1 true 7
    (Or.inr (Or.inl ⟨exNoDraftEmail, rfl, rfl⟩))

/-- C6: when the provider's send capability fails, the Email's status is
left unchanged (emails, drafts and analyses are untouched), the failure
is reported as `SendDeliveryError`, and the only write is an Activity Log
entry noting the failed attempt — so the operation is safely retriable. -/
theorem send_delivery_failure_retriable (s : PipelineState) (eid : Nat)
    (actor : Nat) (e : Email) (he : findEmail s eid = some e)
    (hd : hasDraft s eid = true)
    (hst : e.status = Status.pending_review ∨
           e.status = Status.in_progress) :
    (sendOp s eid false actor).outcome =
        Except.error SendError.SendDeliveryError ∧
    (sendOp s eid false actor).providerCalled = true ∧
    (sendOp s eid false actor).state.emails = s.emails ∧
    (sendOp s eid false actor).state.drafts = s.drafts ∧
    (sendOp s eid false actor).state.analyses = s.analyses ∧
    (sendOp s eid false actor).state.log =
        s.log ++ [sendFailedEntry eid actor] := by
  have hmain : sendOp s eid false actor =
      { state := { s with log := s.log ++ [sendFailedEntry eid actor] },
        providerCalled := true,
        outcome := Except.error SendError.SendDeliveryError } := by
    rcases hst with h | h <;> simp [sendOp, he, hd, h]
  rw [hmain]
  exact ⟨rfl, rfl, rfl, rfl, rfl, rfl⟩

/-- A draft belonging to email 1, for send/edit witnesses. -/
def exDraft : DraftReply :=
  { draft_id := 2, email_id := 1, subject := "Re: Need help",
    body_text := "Hi Jane,", is_edited := false, edited_by := none,
    created_at := 3 }

/-- A store with a pending-review Email and its draft. -/
def exDraftedState : PipelineState :=
  { emails := [exNoDraftEmail], drafts := [exDraft], analyses := [],
    log := [], nextId := 3 }

/-- Witness for C6: a failing provider send on a drafted pending-review
Email reports `SendDeliveryError`, leaves all entities unchanged and
appends only the failed-attempt log entry. -/
theorem send_delivery_failure_retriable_witness :
    (sendOp exDraftedState 1 false 7).outcome =
        Except.error SendError.SendDeliveryError ∧
    (sendOp exDraftedState 1 false 7).providerCalled = true ∧
    (sendOp exDraftedState 1 false 7).state.emails =
        exDraftedState.emails ∧
    (sendOp exDraftedState 1 false 7).state.drafts =
        exDraftedState.drafts ∧
    (sendOp exDraftedState 1 false 7).state.analyses =
        exDraftedState.analyses ∧
    (sendOp exDraftedState 1 false 7).state.log =
        exDraftedState.log ++ [sendFailedEntry 1 7] :=
  send_delivery_failure_retriable exDraftedState 1 7 exNoDraftEmail rfl rfl
    (Or.inl rfl)

/-- C7: a DraftReply edit (content replaced, `is_edited` set true, editor
recorded) succeeds exactly while the owning Email's status is not `sent`;
on a `sent` Email it fails with `DraftLocked` and the store — in
particular the draft's content — is unchanged. -/
theorem draft_edit_rule (s : PipelineState) (did : Nat) (c : String)
    (ed : Nat) (d : DraftReply) (e : Email)
    (hd : findDraft s did = some d) (he : findEmail s d.email_id = some e) :
    (e.status = Status.sent →
      editDraft s did c ed = Except.error EditError.DraftLocked ∧
      applyOp s (Op.edit did c ed) = s) ∧
    (e.status ≠ Status.sent →
      ∃ s', editDraft s did c ed = Except.ok s' ∧
        findDraft s' did =
          some { d with body_text := c, is_edited := true,
                        edited_by := some ed } ∧
        s'.emails = s.emails ∧ s'.analyses = s.analyses ∧
        s'.log = s.log) := by
  constructor
  · intro hs
    have h1 : editDraft s did c ed = Except.error EditError.DraftLocked := by
      simp [editDraft, hd, he, hs]
    exact ⟨h1, by simp [applyOp, h1]⟩
  · intro hs
    refine ⟨{ s with
        drafts := s.drafts.map
          (fun x => if x.draft_id == did then
            { x with body_text := c, is_edited := true,
                     edited_by := some ed } else x) },
      ?_, ?_, rfl, rfl, rfl⟩
    · simp [editDraft, hd, he, hs]
    · exact find?_map_ite
        (fun x => { x with body_text := c, is_edited := true,
                           edited_by := some ed }) hd (fun x hx => hx)

/-- The email of `exDraftedState` after its reply was sent. -/
def exSentEmail : Email :=
  { exNoDraftEmail with status := Status.sent }

/-- A store with a `sent` Email and its (now locked) draft. -/
def exSentState : PipelineState :=
  { emails := [exSentEmail], drafts := [exDraft], analyses := [],
    log := [], nextId := 3 }

/-- Witness for C7, Scenario C: editing the draft of a `sent` Email fails
with `DraftLocked` and the store is untouched. -/
theorem draft_edit_rule_witness :
    (exSentEmail.status = Status.sent →
      editDraft exSentState 2 "changed" 7 =
          Except.error EditError.DraftLocked ∧
      applyOp exSentState (Op.edit 2 "changed" 7) = exSentState) ∧
    (exSentEmail.status ≠ Status.sent →
      ∃ s', editDraft exSentState 2 "changed" 7 = Except.ok s' ∧
        findDraft s' 2 =
          some { exDraft with body_text := "changed", is_edited := true,
                              edited_by := some 7 } ∧
        s'.emails = exSentState.emails ∧
        s'.analyses = exSentState.analyses ∧
        s'.log = exSentState.log) :=
  draft_edit_rule exSentState 2 "changed" 7 exDraft exSentEmail rfl rfl

/-- A later draft for the same email (created after `exDraft`). -/
def exNewDraft : DraftReply :=
  { draft_id := 4, email_id := 1, subject := "Re: Need help",
    body_text := "Hi Jane, here is the updated reply.", is_edited := false,
    edited_by := none, created_at := 9 }

/-- C8 fails on the code: with the drafts returned in ascending creation
order, `handleSelectEmail` (embedded as `latestDraftUI`,
`src/ui.jsx` lines 106–110) selects the FIRST element — the oldest
draft — whereas the specification's current draft is the one with the
maximum creation timestamp.  This closed theorem evaluates both at the
failing input. -/
theorem latest_draft_ordering_bug :
    latestDraftUI [exDraft, exNewDraft] = some exDraft ∧
    currentDraftByTimestamp [exDraft, exNewDraft] = some exNewDraft ∧
    exDraft.created_at < exNewDraft.created_at ∧
    exDraft ≠ exNewDraft := by
  refine ⟨rfl, ?_, by decide, by decide⟩
  simp [currentDraftByTimestamp, exDraft, exNewDraft]

/-- C10: a dashboard step emits a send request only when both a selected
email and a selected draft exist, the selected email's status is not
`sent`, and no draft edit is in progress; the emitted request targets
exactly the selected email and draft.  (The Send button is rendered only
inside the draft panel and carries
`disabled={status === 'sent' || editingReply}`; `handleSendReply` is
additionally guarded by `selectedEmail && selectedDraft`.) -/
theorem dashboard_send_guard (s : DashState) (ev : UIEvent)
    (r : SendRequest) (h : (step s ev).2 = some r) :
    ∃ e d, s.selectedEmail = some e ∧ s.selectedDraft = some d ∧
      e.status ≠ Status.sent ∧ s.editingReply = false ∧
      r.email_id = e.email_id ∧ r.draft_id = d.draft_id := by
  obtain ⟨emails, se, sd, rc, er⟩ := s
  cases ev with
  | fetchSuccess data => simp [step] at h
  | selectEmail data =>
      cases hl : latestDraftUI data.draft_replies <;> simp [step, hl] at h
  | editClick => cases se <;> cases sd <;> cases er <;> simp [step] at h
  | cancelClick => cases se <;> cases sd <;> cases er <;> simp [step] at h
  | setContent c => cases er <;> simp [step] at h
  | saveSuccess u => cases se <;> cases sd <;> simp [step] at h
  | statusChange eid u =>
      cases se with
      | none => simp [step] at h
      | some e =>
          by_cases hb : (e.email_id == eid) = true <;> simp [step, hb] at h
  | sendClick ok =>
      cases se with
      | none => simp [step] at h
      | some e =>
          cases sd with
          | none => simp [step] at h
          | some d =>
              by_cases hsent : e.status = Status.sent
              · simp [step, hsent] at h
              · cases er with
                | true => simp [step, hsent] at h
                | false =>
                    cases ok with
                    | true =>
                        simp [step, hsent] at h
                        exact ⟨e, d, rfl, rfl, hsent, rfl,
                          by rw [← h], by rw [← h]⟩
                    | false =>
                        simp [step, hsent] at h
                        exact ⟨e, d, rfl, rfl, hsent, rfl,
                          by rw [← h], by rw [← h]⟩

/-- The loaded email payload used in the C10 witness. -/
def exEmailData : EmailData :=
  { email_id := 1, status := Status.pending_review,
    draft_replies := [exDraft] }

/-- A dashboard state with a pending-review email and its draft selected
and no edit in progress. -/
def exDashState : DashState :=
  { emails := [exEmailData], selectedEmail := some exEmailData,
    selectedDraft := some exDraft, replyContent := "Hi Jane,",
    editingReply := false }

/-- Witness for C10: clicking Send in `exDashState` emits the send
request for exactly the selected email and draft, and the guard
conditions hold there. -/
theorem dashboard_send_guard_witness :
    ∃ e d, exDashState.selectedEmail = some e ∧
      exDashState.selectedDraft = some d ∧
      e.status ≠ Status.sent ∧ exDashState.editingReply = false ∧
      (1 : Nat) = e.email_id ∧ (2 : Nat) = d.draft_id :=
  dashboard_send_guard exDashState (UIEvent.sendClick true)
    { email_id := 1, draft_id := 2 } rfl

/-! ## Status tracking across traces -/

/-- The status of the Email with the given id, when present. -/
def emailStatus (s : PipelineState) (eid : Nat) : Option Status :=
  match findEmail s eid with
  | some e => some e.status
  | none => none

/-- Whether the Email with the given id currently has status `sent`. -/
def isSent (s : PipelineState) (eid : Nat) : Bool :=
  match findEmail s eid with
  | some e => e.status == Status.sent
  | none => false

theorem isSent_iff {s : PipelineState} {eid : Nat} :
    isSent s eid = true ↔
      ∃ e, findEmail s eid = some e ∧ e.status = Status.sent := by
  unfold isSent
  cases hf : findEmail s eid <;> simp [hf]

theorem isSent_of_emails_eq {s s' : PipelineState} (eid : Nat)
    (h : s'.emails = s.emails) : isSent s' eid = isSent s eid := by
  unfold isSent findEmail
  rw [h]

/-- Mapping a function that does not change a predicate's verdict
commutes with `find?`. -/
theorem find?_map_pres {α : Type} (f : α → α) (p : α → Bool)
    (hf : ∀ x, p (f x) = p x) (l : List α) :
    (l.map f).find? p = (l.find? p).map f := by
  induction l with
  | nil => rfl
  | cons a t ih =>
      rw [List.map_cons]
      by_cases ha : p a = true
      · rw [List.find?_cons_of_pos _ (by rw [hf a]; exact ha),
            List.find?_cons_of_pos _ ha]
        rfl
      · rw [List.find?_cons_of_neg _ (by rw [hf a]; exact ha),
            List.find?_cons_of_neg _ ha, ih]

theorem emailId_beq_pres_status (eid0 eid : Nat) (target : Status) :
    ∀ x : Email,
      ((if x.email_id == eid0 then { x with status := target } else x).email_id
          == eid)
        = (x.email_id == eid) := by
  intro x
  by_cases hx : (x.email_id == eid0) = true <;> simp [hx]

theorem findEmail_map_status (s : PipelineState) (eid eid0 : Nat)
    (target : Status) :
    (s.emails.map
        (fun x => if x.email_id == eid0 then { x with status := target }
                  else x)).find?
      (fun e => e.email_id == eid) =
    (s.emails.find? (fun e => e.email_id == eid)).map
      (fun x => if x.email_id == eid0 then { x with status := target }
                else x) :=
  find?_map_pres _ _ (emailId_beq_pres_status eid0 eid target) s.emails

theorem editDraft_ok_emails {s s' : PipelineState} {did : Nat} {c : String}
    {ed : Nat} (h : editDraft s did c ed = Except.ok s') :
    s'.emails = s.emails ∧ s'.drafts = s.drafts.map
      (fun x => if x.draft_id == did then
        { x with body_text := c, is_edited := true,
                 edited_by := some ed } else x) := by
  cases hfd : findDraft s did with
  | none =>
      have heq : editDraft s did c ed = Except.error EditError.NotFound := by
        simp [editDraft, hfd]
      rw [heq] at h
      exact absurd h (by simp)
  | some d =>
      cases hfe : findEmail s d.email_id with
      | none =>
          have heq : editDraft s did c ed = Except.error EditError.NotFound := by
            simp [editDraft, hfd, hfe]
          rw [heq] at h
          exact absurd h (by simp)
      | some e =>
          by_cases hs : e.status = Status.sent
          · have heq : editDraft s did c ed =
                Except.error EditError.DraftLocked := by
              simp [editDraft, hfd, hfe, hs]
            rw [heq] at h
            exact absurd h (by simp)
          · have heq : editDraft s did c ed = Except.ok
                { s with
                  drafts := s.drafts.map
                    (fun x => if x.draft_id == did then
                      { x with body_text := c, is_edited := true,
                               edited_by := some ed } else x) } := by
              simp [editDraft, hfd, hfe, hs]
            rw [heq] at h
            injection h with h
            rw [← h]
            exact ⟨rfl, rfl⟩

theorem updateEmailStatus_ok {s s' : PipelineState} {eid : Nat}
    {target : Status} {actor : Nat}
    (h : updateEmailStatus s eid target actor = Except.ok s') :
    ∃ e, findEmail s eid = some e ∧
      allowedTransition e.status target = true ∧
      s' = { s with
             emails := s.emails.map
               (fun x => if x.email_id == eid then { x with status := target }
                         else x),
             log := s.log ++ [statusChangeEntry eid e.status target actor] } := by
  cases hfe : findEmail s eid with
  | none =>
      have heq : updateEmailStatus s eid target actor =
          Except.error WorkflowError.NotFound := by
        simp [updateEmailStatus, hfe]
      rw [heq] at h
      exact absurd h (by simp)
  | some e =>
      by_cases hall : allowedTransition e.status target = true
      · have heq : updateEmailStatus s eid target actor = Except.ok
            { s with
              emails := s.emails.map
                (fun x => if x.email_id == eid then { x with status := target }
                          else x),
              log := s.log ++ [statusChangeEntry eid e.status target actor] } := by
          simp [updateEmailStatus, hfe, hall]
        rw [heq] at h
        injection h with h
        exact ⟨e, rfl, hall, h.symm⟩
      · have heq : updateEmailStatus s eid target actor =
            Except.error WorkflowError.InvalidTransition := by
          simp [updateEmailStatus, hfe, hall]
        rw [heq] at h
        exact absurd h (by simp)

theorem allowedTransition_target_ne_sent {st target : Status}
    (h : allowedTransition st target = true) : target ≠ Status.sent := by
  cases st <;> cases target <;> simp [allowedTransition] at h ⊢

/-- Once an Email is `sent`, no pipeline or workflow operation moves it
out of `sent` (terminality of `sent`, §4.7). -/
theorem sent_absorbing (s : PipelineState) (eid : Nat) (op : Op)
    (h : isSent s eid = true) : isSent (applyOp s op) eid = true := by
  obtain ⟨e, he, hes⟩ := isSent_iff.mp h
  have he' : s.emails.find? (fun x => x.email_id == eid) = some e := he
  have hpe : (e.email_id == eid) = true :=
    List.find?_some (p := fun x : Email => x.email_id == eid) he'
  cases op with
  | ingest pid msg =>
      show isSent (ingestOp s pid msg) eid = true
      cases hk : findByKey s pid msg.external_id with
      | some e' => rw [ingest_found hk]; exact h
      | none =>
          rw [ingest_not_found hk]
          refine isSent_iff.mpr ⟨e, ?_, hes⟩
          show (s.emails ++ _).find? _ = some e
          rw [List.find?_append, he']
          rfl
  | status eid0 target actor =>
      show isSent (match updateEmailStatus s eid0 target actor with
                   | Except.ok s' => s'
                   | Except.error _ => s) eid = true
      cases hu : updateEmailStatus s eid0 target actor with
      | error _ => exact h
      | ok s' =>
          obtain ⟨e0, hfe0, hall, hs'⟩ := updateEmailStatus_ok hu
          subst hs'
          refine isSent_iff.mpr ?_
          by_cases hsame : (e.email_id == eid0) = true
          · exfalso
            have heq : eid = eid0 := by
              have h1 : e.email_id = eid := beq_iff_eq.mp hpe
              have h2 : e.email_id = eid0 := beq_iff_eq.mp hsame
              rw [← h1, h2]
            subst heq
            rw [he] at hfe0
            injection hfe0 with hfe0
            subst hfe0
            rw [hes] at hall
            exact absurd hall (by cases target <;> simp [allowedTransition])
          · refine ⟨e, ?_, hes⟩
            show (s.emails.map _).find? _ = some e
            rw [findEmail_map_status, he', Option.map_some', if_neg hsame]
  | edit did c ed =>
      show isSent (match editDraft s did c ed with
                   | Except.ok s' => s'
                   | Except.error _ => s) eid = true
      cases hed : editDraft s did c ed with
      | error _ => exact h
      | ok s' =>
          rw [isSent_of_emails_eq eid (editDraft_ok_emails hed).1]
          exact h
  | send eid0 pOk actor =>
      show isSent (sendOp s eid0 pOk actor).state eid = true
      cases hf0 : findEmail s eid0 with
      | none =>
          have hst : (sendOp s eid0 pOk actor).state = s := by
            simp [sendOp, hf0]
          rw [hst]; exact h
      | some e0 =>
          by_cases hd0 : hasDraft s eid0 = false
          · have hst : (sendOp s eid0 pOk actor).state = s := by
              simp [sendOp, hf0, hd0]
            rw [hst]; exact h
          · by_cases hterm : e0.status = Status.sent ∨
                e0.status = Status.resolved
            · have hst : (sendOp s eid0 pOk actor).state = s := by
                simp [sendOp, hf0, hd0, hterm]
              rw [hst]; exact h
            · cases pOk with
              | false =>
                  have hst : (sendOp s eid0 false actor).state =
                      { s with log := s.log ++ [sendFailedEntry eid0 actor] } := by
                    simp [sendOp, hf0, hd0, hterm]
                  rw [hst]
                  exact h
              | true =>
                  have hst : (sendOp s eid0 true actor).state =
                      { s with
                        emails := s.emails.map
                          (fun x => if x.email_id == eid0 then
                            { x with status := Status.sent } else x),
                        log := s.log ++ [replySentEntry eid0 actor] } := by
                    simp [sendOp, hf0, hd0, hterm]
                  rw [hst]
                  refine isSent_iff.mpr ?_
                  by_cases hsame : (e.email_id == eid0) = true
                  · refine ⟨{ e with status := Status.sent }, ?_, rfl⟩
                    show (s.emails.map _).find? _ = _
                    rw [findEmail_map_status, he', Option.map_some', if_pos hsame]
                  · refine ⟨e, ?_, hes⟩
                    show (s.emails.map _).find? _ = some e
                    rw [findEmail_map_status, he', Option.map_some', if_neg hsame]
  | analyze eid0 r =>
      show isSent (analyzeOne s eid0 r) eid = true
      cases hf0 : findEmail s eid0 with
      | none =>
          have hst : analyzeOne s eid0 r = s := by simp [analyzeOne, hf0]
          rw [hst]; exact h
      | some e0 =>
          cases r with
          | ok a =>
              have hst : (analyzeOne s eid0 (Except.ok a)).emails = s.emails := by
                simp [analyzeOne, hf0]
              rw [isSent_of_emails_eq eid hst]; exact h
          | error u =>
              have hst : (analyzeOne s eid0 (Except.error u)).emails = s.emails := by
                simp [analyzeOne, hf0]
              rw [isSent_of_emails_eq eid hst]; exact h
  | draftGen eid0 r =>
      show isSent (draftGenOp s eid0 r) eid = true
      have hst : (draftGenOp s eid0 r).emails = s.emails := by
        cases hf0 : findEmail s eid0 with
        | none => simp [draftGenOp, hf0]
        | some e0 =>
            by_cases hok : e0.status = Status.pending_review ∨
                e0.status = Status.in_progress
            · cases r <;> simp [draftGenOp, hf0, hok]
            · simp [draftGenOp, hf0, hok]
      rw [isSent_of_emails_eq eid hst]
      exact h

/-- Number of steps in a trace that move the given Email into the `sent`
status (a step counts when the Email is not `sent` before it and `sent`
after it). -/
def sentTransitions (s : PipelineState) (eid : Nat) : List Op → Nat
  | [] => 0
  | op :: ops =>
      (if isSent s eid = false ∧ isSent (applyOp s op) eid = true then 1
       else 0) + sentTransitions (applyOp s op) eid ops

theorem sentTransitions_of_sent {eid : Nat} (ops : List Op) :
    ∀ s : PipelineState, isSent s eid = true →
      sentTransitions s eid ops = 0 := by
  induction ops with
  | nil => intro s _; rfl
  | cons op ops ih =>
      intro s hs
      have hnext := sent_absorbing s eid op hs
      unfold sentTransitions
      rw [ih _ hnext, if_neg (by rw [hs]; exact fun hc => by simp at hc)]

/-- C4: across any sequence of pipeline and workflow operations —
including repeated send attempts after failures — the transition of an
Email's status to `sent` happens at most once. -/
theorem sent_at_most_once (eid : Nat) (ops : List Op) (s : PipelineState) :
    sentTransitions s eid ops ≤ 1 := by
  induction ops generalizing s with
  | nil => exact Nat.zero_le 1
  | cons op ops ih =>
      unfold sentTransitions
      by_cases hc : isSent s eid = false ∧ isSent (applyOp s op) eid = true
      · rw [if_pos hc, sentTransitions_of_sent ops _ hc.2]
      · rw [if_neg hc, Nat.zero_add]
        exact ih (applyOp s op)

/-- The §3 invariant: every `sent` Email has a DraftReply (it was
required to exist when the Send Pipeline transmitted it). -/
def SentHasDraft (s : PipelineState) : Prop :=
  ∀ e ∈ s.emails, e.status = Status.sent →
    ∃ d ∈ s.drafts, d.email_id = e.email_id

theorem sentHasDraft_congr {s s' : PipelineState}
    (he : s'.emails = s.emails) (hd : s'.drafts = s.drafts)
    (h : SentHasDraft s) : SentHasDraft s' := by
  intro e hm hs
  rw [he] at hm
  rw [hd]
  exact h e hm hs

theorem sentHasDraft_applyOp (s : PipelineState) (op : Op)
    (h : SentHasDraft s) : SentHasDraft (applyOp s op) := by
  cases op with
  | ingest pid msg =>
      show SentHasDraft (ingestOp s pid msg)
      cases hk : findByKey s pid msg.external_id with
      | some e' => rw [ingest_found hk]; exact h
      | none =>
          rw [ingest_not_found hk]
          intro e hmem hsent
          rcases List.mem_append.mp hmem with hm | hm
          · exact h e hm hsent
          · rw [List.mem_singleton.mp hm] at hsent
            exact absurd hsent (by simp [newEmailOf])
  | status eid0 target actor =>
      show SentHasDraft (match updateEmailStatus s eid0 target actor with
                         | Except.ok s' => s'
                         | Except.error _ => s)
      cases hu : updateEmailStatus s eid0 target actor with
      | error _ => exact h
      | ok s' =>
          obtain ⟨e0, _, hall, hs'⟩ := updateEmailStatus_ok hu
          subst hs'
          intro e' hmem hsent
          obtain ⟨x, hx, hfx⟩ := List.mem_map.mp hmem
          by_cases hxe : (x.email_id == eid0) = true
          · rw [if_pos hxe] at hfx
            rw [← hfx] at hsent
            exact absurd hsent (allowedTransition_target_ne_sent hall)
          · rw [if_neg hxe] at hfx
            subst hfx
            exact h x hx hsent
  | edit did c ed =>
      show SentHasDraft (match editDraft s did c ed with
                         | Except.ok s' => s'
                         | Except.error _ => s)
      cases hed : editDraft s did c ed with
      | error _ => exact h
      | ok s' =>
          obtain ⟨hem, hdr⟩ := editDraft_ok_emails hed
          intro e hmem hsent
          rw [hem] at hmem
          obtain ⟨d, hd, hdid⟩ := h e hmem hsent
          rw [hdr]
          refine ⟨if d.draft_id == did then
            { d with body_text := c, is_edited := true,
                     edited_by := some ed } else d,
            List.mem_map.mpr ⟨d, hd, rfl⟩, ?_⟩
          by_cases hdd : (d.draft_id == did) = true
          · rw [if_pos hdd]
            exact hdid
          · rw [if_neg hdd]
            exact hdid
  | send eid0 pOk actor =>
      show SentHasDraft (sendOp s eid0 pOk actor).state
      cases hf0 : findEmail s eid0 with
      | none =>
          have hst : (sendOp s eid0 pOk actor).state = s := by
            simp [sendOp, hf0]
          rw [hst]; exact h
      | some e0 =>
          cases hdb : hasDraft s eid0 with
          | false =>
              have hst : (sendOp s eid0 pOk actor).state = s := by
                simp [sendOp, hf0, hdb]
              rw [hst]; exact h
          | true =>
              have hd0 : ¬(hasDraft s eid0 = false) := by rw [hdb]; simp
              by_cases hterm : e0.status = Status.sent ∨
                  e0.status = Status.resolved
              · have hst : (sendOp s eid0 pOk actor).state = s := by
                  simp [sendOp, hf0, hd0, hterm]
                rw [hst]; exact h
              · cases pOk with
                | false =>
                    have hst : (sendOp s eid0 false actor).state =
                        { s with log := s.log ++ [sendFailedEntry eid0 actor] } := by
                      simp [sendOp, hf0, hd0, hterm]
                    rw [hst]
                    exact sentHasDraft_congr rfl rfl h
                | true =>
                    have hst : (sendOp s eid0 true actor).state =
                        { s with
                          emails := s.emails.map
                            (fun x => if x.email_id == eid0 then
                              { x with status := Status.sent } else x),
                          log := s.log ++ [replySentEntry eid0 actor] } := by
                      simp [sendOp, hf0, hd0, hterm]
                    rw [hst]
                    intro e' hmem hsent
                    obtain ⟨x, hx, hfx⟩ := List.mem_map.mp hmem
                    by_cases hxe : (x.email_id == eid0) = true
                    · obtain ⟨d, hd, hdp⟩ :=
                        List.any_eq_true.mp hdb
                      refine ⟨d, hd, ?_⟩
                      have hde : d.email_id = eid0 := beq_iff_eq.mp hdp
                      have hxe' : x.email_id = eid0 := beq_iff_eq.mp hxe
                      rw [if_pos hxe] at hfx
                      rw [← hfx]
                      show d.email_id = x.email_id
                      rw [hde, hxe']
                    · rw [if_neg hxe] at hfx
                      subst hfx
                      exact h x hx hsent
  | analyze eid0 r =>
      show SentHasDraft (analyzeOne s eid0 r)
      cases hf0 : findEmail s eid0 with
      | none =>
          have hst : analyzeOne s eid0 r = s := by simp [analyzeOne, hf0]
          rw [hst]; exact h
      | some e0 =>
          cases r with
          | ok a =>
              refine sentHasDraft_congr ?_ ?_ h <;> simp [analyzeOne, hf0]
          | error u =>
              refine sentHasDraft_congr ?_ ?_ h <;> simp [analyzeOne, hf0]
  | draftGen eid0 r =>
      show SentHasDraft (draftGenOp s eid0 r)
      cases hf0 : findEmail s eid0 with
      | none =>
          have hst : draftGenOp s eid0 r = s := by simp [draftGenOp, hf0]
          rw [hst]; exact h
      | some e0 =>
          by_cases hok : e0.status = Status.pending_review ∨
              e0.status = Status.in_progress
          · cases r with
            | ok dd =>
                have hst : draftGenOp s eid0 (Except.ok dd) =
                    { s with
                      drafts := s.drafts ++
                        [{ draft_id := s.nextId, email_id := eid0,
                           subject := dd.subject, body_text := dd.body_text,
                           is_edited := false, edited_by := none,
                           created_at := dd.created_at }],
                      nextId := s.nextId + 1 } := by
                  simp [draftGenOp, hf0, hok]
                rw [hst]
                intro e hmem hsent
                obtain ⟨d, hd, hdid⟩ := h e hmem hsent
                exact ⟨d, List.mem_append_left _ hd, hdid⟩
            | error u =>
                have hst : draftGenOp s eid0 (Except.error u) =
                    { s with log := s.log ++ [draftFailedEntry eid0] } := by
                  simp [draftGenOp, hf0, hok]
                rw [hst]
                exact sentHasDraft_congr rfl rfl h
          · have hst : draftGenOp s eid0 r = s := by
              simp [draftGenOp, hf0, hok]
            rw [hst]; exact h

theorem sentHasDraft_run (ops : List Op) :
    ∀ s : PipelineState, SentHasDraft s → SentHasDraft (run s ops) := by
  induction ops with
  | nil => intro s h; exact h
  | cons op ops ih =>
      intro s h
      exact ih (applyOp s op) (sentHasDraft_applyOp s op h)

theorem sentHasDraft_init : SentHasDraft initState := by
  intro e he
  exact absurd he (by simp [initState])

/-- C3: in every reachable store, a `sent` Email has a DraftReply, and
every edit attempt on any of its DraftReplies fails with `DraftLocked`
(so no mutation of its drafts ever succeeds once it is `sent`). -/
theorem sent_email_has_locked_draft (s : PipelineState) (hs : Reachable s)
    (eid : Nat) (e : Email) (he : findEmail s eid = some e)
    (hst : e.status = Status.sent) :
    (∃ d ∈ s.drafts, d.email_id = eid) ∧
    (∀ did d c ed, findDraft s did = some d → d.email_id = eid →
      editDraft s did c ed = Except.error EditError.DraftLocked) := by
  obtain ⟨ops, hops⟩ := hs
  have hinv : SentHasDraft s :=
    hops ▸ sentHasDraft_run ops initState sentHasDraft_init
  constructor
  · have he' : s.emails.find? (fun x => x.email_id == eid) = some e := he
    have hmem : e ∈ s.emails := List.mem_of_find?_eq_some he'
    have hid : e.email_id = eid :=
      beq_iff_eq.mp
        (List.find?_some (p := fun x : Email => x.email_id == eid) he')
    obtain ⟨d, hd, hdid⟩ := hinv e hmem hst
    exact ⟨d, hd, by rw [hdid, hid]⟩
  · intro did d c ed hfd hdid
    have hefe : findEmail s d.email_id = some e := by rw [hdid]; exact he
    simp [editDraft, hfd, hefe, hst]

/-- The normalized message used in trace witnesses. -/
def exMsg : NormalizedMessage :=
  { external_id := "e_2001", thread_id := "t_2001",
    from_address := "a@example.com", subject := "hi",
    body_text := "hello", received_timestamp := 5 }

/-- The draft payload used in trace witnesses. -/
def exDraftData : DraftData :=
  { subject := "Re: hi", body_text := "Hello back", llm_provider_id := 1,
    llm_model := "gpt-4", created_at := 6 }

/-- A trace that ingests a message, generates a draft and sends it. -/
def exSentTrace : List Op :=
  [Op.ingest 1 exMsg, Op.draftGen 1 (Except.ok exDraftData),
   Op.send 1 true 7]

/-- The store reached by `exSentTrace`: one `sent` Email with one draft. -/
def exReachedState : PipelineState :=
  run initState exSentTrace

/-- Witness for C3: in the concrete reachable store `exReachedState` the
`sent` Email 1 has a draft and any edit of its drafts is `DraftLocked`. -/
theorem sent_email_has_locked_draft_witness :
    (∃ d ∈ exReachedState.drafts, d.email_id = 1) ∧
    (∀ did d c ed, findDraft exReachedState did = some d →
      d.email_id = 1 →
      editDraft exReachedState did c ed =
        Except.error EditError.DraftLocked) :=
  sent_email_has_locked_draft exReachedState ⟨exSentTrace, rfl⟩ 1
    { email_id := 1, external_id := "e_2001", thread_id := "t_2001",
      from_address := "a@example.com", subject := "hi",
      body_text := "hello", received_timestamp := 5, is_read := false,
      status := Status.sent, provider_id := 1 }
    (by decide) rfl

/-- Number of EmailAnalysis records attached to an Email. -/
def countAnalyses (s : PipelineState) (eid : Nat) : Nat :=
  s.analyses.countP (fun a => a.email_id == eid)

/-- Number of logged analysis-failure events for an Email. -/
def countAnalysisFailures (s : PipelineState) (eid : Nat) : Nat :=
  s.log.countP
    (fun l => l.email_id == eid && l.action_type == "analysis_failed")

/-- C9: in an analysis pass where the model-provider call for email `i`
fails and a later email `j` succeeds, email `i` keeps status
`pending_review`, gains no EmailAnalysis record, exactly one failure
event is logged for it, and email `j` is still processed (its analysis
record is stored). -/
theorem analysis_failure_isolated (s : PipelineState) (i j : Nat)
    (ei ej : Email) (a : AnalysisData)
    (hi : findEmail s i = some ei) (hsi : ei.status = Status.pending_review)
    (hnoa : countAnalyses s i = 0)
    (hj : findEmail s j = some ej) (hij : i ≠ j) :
    emailStatus (analysisPass s [(i, Except.error ()), (j, Except.ok a)]) i
        = some Status.pending_review ∧
    countAnalyses (analysisPass s [(i, Except.error ()), (j, Except.ok a)]) i
        = 0 ∧
    countAnalysisFailures
        (analysisPass s [(i, Except.error ()), (j, Except.ok a)]) i
        = countAnalysisFailures s i + 1 ∧
    countAnalyses (analysisPass s [(i, Except.error ()), (j, Except.ok a)]) j
        = countAnalyses s j + 1 := by
  have hi' : s.emails.find? (fun x => x.email_id == i) = some ei := hi
  have hj' : s.emails.find? (fun x => x.email_id == j) = some ej := hj
  have h1 : analyzeOne s i (Except.error ()) =
      { s with log := s.log ++ [analysisFailedEntry i] } := by
    simp [analyzeOne, hi]
  have hfinal : analysisPass s [(i, Except.error ()), (j, Except.ok a)] =
      { s with
        analyses := s.analyses ++
          [{ analysis_id := s.nextId, email_id := j,
             categories := a.categories, sentiment := a.sentiment,
             intent := a.intent, urgency := a.urgency,
             required_info := a.required_info, summary := a.summary,
             llm_provider_id := a.llm_provider_id,
             llm_model := a.llm_model }],
        log := s.log ++ [analysisFailedEntry i],
        nextId := s.nextId + 1 } := by
    show analyzeOne (analyzeOne s i (Except.error ())) j (Except.ok a) = _
    rw [h1]
    simp [analyzeOne, findEmail, hj']
  have hji : (j == i) = false := beq_eq_false_iff_ne.mpr (Ne.symm hij)
  refine ⟨?_, ?_, ?_, ?_⟩
  · rw [hfinal]
    simp [emailStatus, findEmail, hi', hsi]
  · rw [hfinal]
    show (s.analyses ++ _).countP _ = 0
    rw [List.countP_append]
    have hz : s.analyses.countP (fun x => x.email_id == i) = 0 := hnoa
    rw [hz]
    simp [hji]
  · rw [hfinal]
    show (s.log ++ _).countP _ = _
    rw [List.countP_append]
    simp [countAnalysisFailures, analysisFailedEntry]
  · rw [hfinal]
    show (s.analyses ++ _).countP _ = _
    rw [List.countP_append]
    simp [countAnalyses]

/-- A second pending email, for the C9 witness. -/
def exSecondEmail : Email :=
  { email_id := 2, external_id := "e_1005", thread_id := "thread_1005",
    from_address := "technical_question@example.com",
    subject := "API integration documentation", body_text := "Hello Support",
    received_timestamp := 7, is_read := false,
    status := Status.pending_review, provider_id := 1 }

/-- A store with two pending-review emails and no analyses. -/
def exTwoEmailState : PipelineState :=
  { emails := [exNoDraftEmail, exSecondEmail], drafts := [], analyses := [],
    log := [], nextId := 3 }

/-- The analysis payload used in the C9 witness. -/
def exAnalysisData : AnalysisData :=
  { categories := ["General Inquiry"], sentiment := "neutral",
    intent := "information_request", urgency := 5,
    required_info := ["Additional details"],
    summary := "Customer asks for API documentation.",
    llm_provider_id := 1, llm_model := "gpt-4" }

/-- Witness for C9, Scenario E: analysis of email 1 times out, email 2
succeeds; email 1 stays `pending_review` with no analysis and one logged
failure, email 2 gains its analysis record. -/
theorem analysis_failure_isolated_witness :
    emailStatus
        (analysisPass exTwoEmailState
          [(1, Except.error ()), (2, Except.ok exAnalysisData)]) 1
        = some Status.pending_review ∧
    countAnalyses
        (analysisPass exTwoEmailState
          [(1, Except.error ()), (2, Except.ok exAnalysisData)]) 1 = 0 ∧
    countAnalysisFailures
        (analysisPass exTwoEmailState
          [(1, Except.error ()), (2, Except.ok exAnalysisData)]) 1
        = countAnalysisFailures exTwoEmailState 1 + 1 ∧
    countAnalyses
        (analysisPass exTwoEmailState
          [(1, Except.error ()), (2, Except.ok exAnalysisData)]) 2
        = countAnalyses exTwoEmailState 2 + 1 :=
  analysis_failure_isolated exTwoEmailState 1 2 exNoDraftEmail
    exSecondEmail exAnalysisData rfl rfl rfl rfl (by decide)

end EmailAssistant
